import Mathlib

/-!
Verification development for `inference_realesrgan_video.py` (Real-ESRGAN video
inference pipeline).  The Python source is shallowly embedded below: pure
computations become Lean functions, the mutation of `args.fps` inside
`get_frames` becomes explicit state passing, raised exceptions become `Except`,
and external-process effects (ffmpeg remux, directory removal) become explicit
effect lists.  Numbers follow the source: Python `int()` on a nonnegative value
is truncation, Python floats are modelled as rationals.
-/

namespace RealESRGANVideo

/-! ## Python string primitives -/

/-- Lean model of `s[1:]` on a Python string: drop the first character. -/
def pyTail (s : String) : String := String.mk (s.data.drop 1)

/-- Lean model of `os.path.basename`: everything after the last `/`. -/
def basename (p : String) : String :=
  match p.data.reverse.takeWhile (fun c => c ≠ '/') with
  | l => String.mk l.reverse

/-- Lean model of `os.path.splitext` applied to a basename (no separator in the
input).  Python splits at the last `.`, keeping the dot with the extension,
unless every character before that dot is itself a dot (e.g. `.bashrc`). -/
def splitext (n : String) : String × String :=
  match n.data.reverse.dropWhile (fun c => c ≠ '.') with
  | [] => (n, "")
  | _ :: pre =>
    if (pre.reverse).any (fun c => c ≠ '.') then
      (String.mk pre.reverse,
        String.mk ('.' :: (n.data.reverse.takeWhile (fun c => c ≠ '.')).reverse))
    else (n, "")

/-! ## Python numeric primitives -/

/-- Lean model of Python `int()` on a float (here: rational): truncation toward
zero. -/
def pyInt (q : ℚ) : ℤ := if 0 ≤ q then ⌊q⌋ else ⌈q⌉

/-- Rounding to the nearest integer, as the spec's word `round` means it
(half-up; the claims are settled away from ties, where every rounding
convention agrees). -/
def specRound (q : ℚ) : ℤ := ⌊q + 1/2⌋

/-! ## Configuration (the parsed CLI arguments, lines 214-248) -/

/-- The parsed argument namespace.  Fields and defaults follow the
`argparse` declarations of `main` (lines 214-248). -/
structure Args where
  input : String
  output : String
  model_name : String
  outscale : ℚ
  suffix : String
  tile : ℤ
  tile_pad : ℤ
  pre_pad : ℤ
  face_enhance : Bool
  fp32 : Bool
  fps : Option ℚ
  consumer : ℕ
  stream : Bool
  ffmpeg_bin : String
  alpha_upsampler : String
  ext : String
deriving DecidableEq

/-- The CLI defaults (lines 215-247). -/
def defaultArgs : Args where
  input := "inputs"
  output := "results"
  model_name := "realesr-animevideov3"
  outscale := 4
  suffix := "out"
  tile := 0
  tile_pad := 10
  pre_pad := 0
  face_enhance := false
  fp32 := false
  fps := none
  consumer := 4
  stream := false
  ffmpeg_bin := "ffmpeg"
  alpha_upsampler := "realesrgan"
  ext := "auto"

/-! ## Frame discovery (`get_frames`, lines 18-48) -/

/-- Python exceptions that the embedded code can raise. -/
inductive PyError where
  /-- `'NoneType' object has no attribute 'startswith'` at line 21, when
  `mimetypes.guess_type` returns `None` for the input path. -/
  | attributeError
  /-- `assert len(paths) > 0, 'the input folder is empty'` at line 43. -/
  | assertionError (msg : String)
  /-- Reading the name `extension` at line 200 when the loop body never ran. -/
  | nameError
deriving DecidableEq

/-- Result of `mimetypes.guess_type(args.input)[0]` when it is not `None`:
the top-level media type of the guess. -/
inductive MimeKind where
  | video
  | image
  | other
deriving DecidableEq

/-- The parts of the operating system and ffmpeg environment that
`get_frames` consults: the mime classification of the input path, the raw
(unsorted) `glob` listings, and the probed container frame rate. -/
structure FrameSourceEnv where
  /-- `mimetypes.guess_type(args.input)[0]`, `none` when the guess is `None`. -/
  mimeType : Option MimeKind
  /-- `glob.glob(os.path.join(args.input, '*'))`, unsorted (line 42). -/
  dirEntries : List String
  /-- `glob.glob(os.path.join(frame_folder, '*'))` after extraction, unsorted
  (line 30). -/
  extractedFrames : List String
  /-- `eval(video_streams[0]['avg_frame_rate'])` from `ffmpeg.probe`
  (line 38). -/
  probedFps : ℚ

/-- Lexicographic comparison of character lists by code points: the order
Python uses to compare strings. -/
def lexLe : List Char → List Char → Bool
  | [], _ => true
  | _ :: _, [] => false
  | a :: as, b :: bs => if a < b then true else if a = b then lexLe as bs else false

/-- Lean model of Python `sorted` on strings (lexicographic by code points; a
sorted permutation of a list of strings is unique, so any stable sort embeds
`sorted` faithfully). -/
def pySorted (l : List String) : List String :=
  l.insertionSort (fun a b => lexLe a.data b.data)

/-- Embedding of `get_frames` (lines 18-48).  The mutation of `args.fps` is
returned as an updated `Args`.  Note line 21 calls `.startswith` on the mime
guess without a `None` check, so an unclassifiable input path raises
`AttributeError` before any branch is taken. -/
def get_frames (env : FrameSourceEnv) (args : Args) (extract_frames : Bool) :
    Except PyError (Bool × List String × Args) :=
  match env.mimeType with
  | none => .error .attributeError
  | some .video =>
    let paths := if extract_frames then pySorted env.extractedFrames else []
    let args1 := if args.fps = none then { args with fps := some env.probedFps } else args
    let args2 := if args1.fps = none then { args1 with fps := some (24 : ℚ) } else args1
    .ok (true, paths, args2)
  | some .image =>
    let args2 := if args.fps = none then { args with fps := some (24 : ℚ) } else args
    .ok (false, [args.input], args2)
  | some .other =>
    let paths := pySorted env.dirEntries
    if paths.length > 0 then
      let args2 := if args.fps = none then { args with fps := some (24 : ℚ) } else args
      .ok (false, paths, args2)
    else
      .error (.assertionError "the input folder is empty")

/-! ## File mode: the enhancement loop (`inference_frames`, lines 139-196) -/

/-- One input frame of the file-mode loop: its path together with the shape of
the decoded pixel buffer (`img.shape`) and the behaviour of the external
enhancement engine on it (whether the engine raises a capacity-exceeded
`RuntimeError`, and with which message). -/
structure FrameIn where
  path : String
  ndim : ℕ
  channels : ℕ
  fail : Bool
  errMsg : String
deriving DecidableEq

/-- One `print` call observable by the operator during the loop. -/
inductive LogEvent where
  /-- `print('Error', error)` (line 172 / line 124). -/
  | errorPrint (msg : String)
  /-- The CUDA out-of-memory hint printed right after (line 173 / line 125). -/
  | oomHint
deriving DecidableEq

/-- Text the operator sees for a log event. -/
def printedText : LogEvent → String
  | .errorPrint msg => "Error " ++ msg
  | .oomHint => "If you encounter CUDA out of memory, try to set --tile with a smaller number."

/-- A result record placed on the consumer queue:
`que.put({'output': output, 'save_path': save_path})` (line 184). -/
structure QItem where
  savePath : String
deriving DecidableEq

/-- A value on the result queue: either a result record or the `'quit'`
shutdown sentinel (line 193). -/
inductive QVal where
  | item (q : QItem)
  | quit
deriving DecidableEq

/-- Line 161-164: `img_mode = 'RGBA'` iff the buffer has 3 dimensions and 4
channels. -/
def frame_img_mode (f : FrameIn) : Bool := f.ndim == 3 && f.channels == 4

/-- Lines 176-181: resolve the output extension from the raw `splitext`
extension (with its dot), the `--ext` policy and the RGBA flag. -/
def resolve_extension (args : Args) (rawExt : String) (rgba : Bool) : String :=
  let extension := if args.ext = "auto" then pyTail rawExt else args.ext
  if rgba then "png" else extension

/-- The resolved output extension of one successfully enhanced frame. -/
def frame_ext (args : Args) (f : FrameIn) : String :=
  resolve_extension args (splitext (basename f.path)).2 (frame_img_mode f)

/-- Line 182: `save_path = os.path.join(save_frame_folder, f'{imgname}_out.{extension}')`. -/
def frame_save_path (args : Args) (saveFolder : String) (f : FrameIn) : String :=
  saveFolder ++ "/" ++ (splitext (basename f.path)).1 ++ "_out." ++ frame_ext args f

/-- One iteration of the loop body (lines 159-190): the prints it emits, the
queue item it enqueues (none when the engine raised), and the value of the
Python variable `extension` after the iteration (raw `splitext` value when the
engine raised, the resolved extension otherwise). -/
def processFrame (args : Args) (saveFolder : String) (f : FrameIn) :
    List LogEvent × Option QItem × String :=
  if f.fail then
    ([.errorPrint f.errMsg, .oomHint], none, (splitext (basename f.path)).2)
  else
    ([], some ⟨frame_save_path args saveFolder f⟩, frame_ext args f)

/-- Observable outcome of the whole enhancement loop. -/
structure LoopOut where
  logs : List LogEvent
  queued : List QItem
  pbarUpdates : ℕ
  lastExtension : Option String
deriving DecidableEq

/-- Accumulation of one loop iteration into the observable loop outcome. -/
def loopStep (args : Args) (saveFolder : String) (acc : LoopOut) (f : FrameIn) : LoopOut :=
  let r := processFrame args saveFolder f
  { logs := acc.logs ++ r.1
    queued := acc.queued ++ r.2.1.toList
    pbarUpdates := acc.pbarUpdates + 1
    lastExtension := some r.2.2 }

/-- The enhancement loop (lines 159-190), folded over the frame sequence. -/
def runEnhanceLoop (args : Args) (saveFolder : String) (frames : List FrameIn) : LoopOut :=
  frames.foldl (loopStep args saveFolder) ⟨[], [], 0, none⟩

/-- The full content that passes through the result queue: every enqueued
result record, then `args.consumer` shutdown sentinels (lines 192-193). -/
def finalQueue (args : Args) (saveFolder : String) (frames : List FrameIn) : List QVal :=
  ((runEnhanceLoop args saveFolder frames).queued.map QVal.item)
    ++ List.replicate args.consumer QVal.quit

/-! ## File mode: the consumer pool -/

/-- Number of `true` entries: consumers still running. -/
def countTrue : List Bool → ℕ
  | [] => 0
  | true :: t => countTrue t + 1
  | false :: t => countTrue t

/-- Number of shutdown sentinels in a queue. -/
def countQuit : List QVal → ℕ
  | [] => 0
  | QVal.quit :: t => countQuit t + 1
  | QVal.item _ :: t => countQuit t

/-- Joint state of the result queue and the consumer pool: the remaining queue
content and, per consumer, whether it is still running (`true`) or has
terminated (`false`). -/
structure PoolState where
  queue : List QVal
  running : List Bool
deriving DecidableEq

/-- Modelled from the spec: `IOConsumer` (imported from the `realesrgan`
package; its body is not part of this repository).  Per spec section 4.4 each
worker loops: pop one item from the shared queue; if it is the
ShutdownSentinel, exit; otherwise persist the buffer and loop.  A step of the
pool dequeues the queue head into any still-running consumer `i`; the
consumer terminates exactly when the value is the sentinel.  A consumer with
an empty queue blocks (no step). -/
inductive PoolStep : PoolState → PoolState → Prop where
  | deq (s : PoolState) (i : ℕ) (v : QVal) (rest : List QVal)
      (hq : s.queue = v :: rest) (hi : s.running[i]? = some true) :
      PoolStep s ⟨rest, if v = QVal.quit then s.running.set i false else s.running⟩

/-- Multi-step reachability of the consumer pool. -/
def PoolReachable : PoolState → PoolState → Prop :=
  Relation.ReflTransGen PoolStep

/-- A pool state from which no step is possible (all consumers have
terminated, or the remaining ones block forever on an empty queue). -/
def PoolStuck (s : PoolState) : Prop := ∀ t, ¬ PoolStep s t

/-- Initial pool state after the enhancement loop: the full queue content and
`args.consumer` running consumers (lines 154-157, 192-193). -/
def initPool (args : Args) (saveFolder : String) (frames : List FrameIn) : PoolState :=
  ⟨finalQueue args saveFolder frames, List.replicate args.consumer true⟩

/-! ## File mode: the post-loop tail (lines 198-206) and the whole run -/

/-- External effect of the post-loop code. -/
inductive TailEffect where
  /-- `os.system('ffmpeg -r ... -i {save_frame_folder}/frame%08d_out.{extension} ...')`
  (lines 200-201); carries the extension used in the `%08d` input pattern. -/
  | remux (patternExt : String)
  /-- `shutil.rmtree(save_frame_folder)` (line 203). -/
  | rmtreeSaveFolder
  /-- `shutil.rmtree(frame_folder)` (line 206). -/
  | rmtreeFrameFolder
deriving DecidableEq

/-- Lines 198-206: issue the remux command, then unconditionally remove the
intermediate output folder, then remove the extracted-frames folder when it
exists.  The exit status of `os.system` is not inspected: the run reports
nothing about it and finishes with exit code 0.  Returns
(effects, operator-visible remux failure reports, process exit code). -/
def inference_tail (finalExt : String) (frameFolderIsDir : Bool) (remuxExit : ℤ) :
    List TailEffect × List String × ℕ :=
  ([.remux finalExt, .rmtreeSaveFolder]
      ++ (if frameFolderIsDir then [.rmtreeFrameFolder] else []),
    [], 0)

/-- Whether an `inference_tail` outcome surfaces a failure to the operator:
some failure report, or a nonzero exit code. -/
def surfacedFailure (out : List TailEffect × List String × ℕ) : Prop :=
  out.2.1 ≠ [] ∨ out.2.2 ≠ 0

/-- A filename the remux input pattern `frame%08d_out.{ext}` expands to, for a
width-8 zero-padded decimal digit string `d`. -/
def mergePatternFile (saveFolder ext d : String) : String :=
  saveFolder ++ "/frame" ++ d ++ "_out." ++ ext

/-- A file name is picked up by the merge step iff it is an expansion of the
`frame%08d_out.{ext}` pattern. -/
def PickedUp (saveFolder ext name : String) : Prop :=
  ∃ d : String, d.length = 8 ∧ name = mergePatternFile saveFolder ext d

/-- Everything observable about one file-mode run. -/
structure RunOutput where
  logs : List LogEvent
  queued : List QItem
  pbarUpdates : ℕ
  queueContent : List QVal
  effects : List TailEffect
  remuxReports : List String
  exitCode : ℕ
deriving DecidableEq

/-- Embedding of `inference_frames` (lines 139-206): frame discovery, the
enhancement loop, the sentinel enqueue, and the remux/cleanup tail.  `meta`
supplies each path's decoded buffer shape and engine behaviour;
`frameFolderIsDir` is `os.path.isdir(frame_folder)` at line 205 and
`remuxExit` the exit status of the `os.system` remux call.  When the loop body
never ran, line 200 reads the unbound variable `extension` and raises
`NameError`. -/
def inference_frames (env : FrameSourceEnv) (meta : String → FrameIn) (args : Args)
    (frameFolderIsDir : Bool) (remuxExit : ℤ) : Except PyError RunOutput :=
  match get_frames env args true with
  | .error e => .error e
  | .ok (_, paths, args1) =>
    let video_name := (splitext (basename args1.input)).1
    let saveFolder := args1.output ++ "/" ++ video_name ++ "/frames_tmpout"
    let frames := paths.map (fun p => { meta p with path := p })
    let L := runEnhanceLoop args1 saveFolder frames
    match L.lastExtension with
    | none => .error .nameError
    | some ext =>
      let tail := inference_tail ext frameFolderIsDir remuxExit
      .ok { logs := L.logs
            queued := L.queued
            pbarUpdates := L.pbarUpdates
            queueContent := finalQueue args1 saveFolder frames
            effects := tail.1
            remuxReports := tail.2.1
            exitCode := tail.2.2 }

/-! ## Stream mode (`inference_stream`, lines 51-136) -/

/-- Line 83: `out_width = int(width * args.outscale)`. -/
def stream_out_width (args : Args) (width : ℕ) : ℤ := pyInt (width * args.outscale)

/-- Line 83: `out_height = int(height * args.outscale)`. -/
def stream_out_height (args : Args) (height : ℕ) : ℤ := pyInt (height * args.outscale)

/-- Modelled from the spec: the external Enhancement Engine
(`RealESRGANer.enhance` / `face_enhancer.enhance`, from the `realesrgan` and
`gfpgan` packages; their bodies are not part of this repository).  Per spec
sections 1 and 4.5, on success it returns an enhanced buffer whose dimensions
are the input's scaled by `outscale` (the same scaled geometry as line 83),
with the channel count preserved; on accelerator capacity exhaustion it raises
`RuntimeError` instead. -/
def enhancedDims (outscale : ℚ) (height width : ℕ) : ℕ × ℕ :=
  ((pyInt (height * outscale)).toNat, (pyInt (width * outscale)).toNat)

/-- One stream-mode run over the decode pipe (video branch): the probed frame
geometry, the number of frames the decoder delivers before the empty read, and
the engine's per-frame capacity failures. -/
structure StreamRun where
  width : ℕ
  height : ℕ
  nFrames : ℕ
  fails : ℕ → Bool

/-- Number of frames read from the decode pipe (each a full
`width*height*3`-byte read; the run ends on the first empty read). -/
def framesRead (r : StreamRun) : ℕ := r.nFrames

/-- The stream loop (lines 106-130), video branch: for each decoded frame, on
engine success write the enhanced buffer's bytes to the encode pipe, on a
`RuntimeError` print the two messages and write nothing.  Returns the byte
count of each write to the encode pipe, in order. -/
def streamWrites (args : Args) (r : StreamRun) : List ℕ :=
  (List.range r.nFrames).filterMap (fun i =>
    if r.fails i then none
    else
      some ((enhancedDims args.outscale r.height r.width).1
        * (enhancedDims args.outscale r.height r.width).2 * 3))

/-! ## Claims about frame discovery (C6, C7, C8) -/

/-- An environment whose input path gets no mime classification: the case of
an ordinary directory name such as the default `inputs`. -/
def envNoMime : FrameSourceEnv := ⟨none, ["b", "a"], [], 24⟩

/-- An environment whose input is classified neither video nor image and holds
two (unsorted) directory entries. -/
def envDirBA : FrameSourceEnv := ⟨some .other, ["b", "a"], [], 24⟩

/-- An environment whose input is classified neither video nor image and whose
directory listing is empty. -/
def envDirEmpty : FrameSourceEnv := ⟨some .other, [], [], 24⟩

/-- Frame metadata used in concrete runs: 3-channel buffers, engine succeeds. -/
def metaOk : String → FrameIn := fun p => ⟨p, 3, 3, false, ""⟩

/-- C7: the spec says directory input yields the directory's contents sorted
lexicographically, or an empty-input error before any frame is processed.  The
code instead classifies the input with `mimetypes.guess_type(...)[0].startswith`
without a `None` check (line 21), so an ordinary extensionless directory name —
including the documented default `inputs` ("Input video, image or folder") —
raises `AttributeError` before any branch runs.  This theorem records the
divergence: with no mime classification both discovery and the whole file-mode
run abort with `AttributeError`; only when the input happens to carry a
non-video, non-image classification does the documented behaviour (sorted
listing, empty-input assertion, each before any frame is processed) occur. -/
theorem C7_directory_discovery :
    get_frames envNoMime defaultArgs false = .error .attributeError ∧
    inference_frames envNoMime metaOk defaultArgs false 0 = .error .attributeError ∧
    get_frames envDirBA defaultArgs false =
      .ok (false, ["a", "b"], { defaultArgs with fps := some 24 }) ∧
    get_frames envDirEmpty defaultArgs false =
      .error (.assertionError "the input folder is empty") ∧
    inference_frames envDirEmpty metaOk defaultArgs false 0 =
      .error (.assertionError "the input folder is empty") := by
  exact ⟨rfl, rfl, rfl, rfl, rfl⟩

/-- An image-classified environment (input is a single image file). -/
def envImage30 : FrameSourceEnv := ⟨some .image, [], [], 30⟩

/-- C6 counterexample: with no explicit fps override, frame discovery — which
runs inside `inference_stream`/`inference_frames`, i.e. after the run begins —
writes the `fps` field of the configuration (line 46 sets it to 24 here), so
not every `PipelineConfig` field is read-only for the lifetime of the run. -/
theorem C6_counterexample :
    get_frames envImage30 defaultArgs false =
      .ok (false, [defaultArgs.input], { defaultArgs with fps := some 24 }) ∧
    ({ defaultArgs with fps := some (24 : ℚ) } : Args).fps ≠ defaultArgs.fps := by
  exact ⟨rfl, by decide⟩

/-- C6 as amended: every `PipelineConfig` field except the target fps is
read-only across frame discovery (the only pipeline operation that touches the
configuration), and the fps field itself is only written when no explicit
override was given — an explicit fps survives unchanged. -/
theorem C6_config_readonly_except_fps :
    ∀ (env : FrameSourceEnv) (args : Args) (ex v : Bool) (ps : List String) (args1 : Args),
      get_frames env args ex = .ok (v, ps, args1) →
      args1.outscale = args.outscale ∧
      args1.tile = args.tile ∧
      args1.tile_pad = args.tile_pad ∧
      args1.pre_pad = args.pre_pad ∧
      args1.fp32 = args.fp32 ∧
      args1.face_enhance = args.face_enhance ∧
      (args.fps ≠ none → args1.fps = args.fps) ∧
      args1.consumer = args.consumer ∧
      args1.ffmpeg_bin = args.ffmpeg_bin ∧
      args1.alpha_upsampler = args.alpha_upsampler ∧
      args1.ext = args.ext := by
  intro env args ex v ps args1 h
  cases henv : env.mimeType with
  | none => simp [get_frames, henv] at h
  | some k =>
    rcases hfps : args.fps with _ | f <;>
      cases k <;>
      simp only [get_frames, henv, hfps] at h <;>
      simp only [reduceCtorEq, if_false, if_true, ite_true, ite_false, reduceIte] at h <;>
      (try split_ifs at h) <;>
      simp only [Except.ok.injEq, Prod.mk.injEq] at h <;>
      obtain ⟨hv, -, h2⟩ := h <;> subst h2 <;> simp_all

/-- Witness for `C6_config_readonly_except_fps` at a concrete input: an
explicit fps of 30 over an image input survives discovery, and the `--ext`
policy is unchanged. -/
theorem C6_witness :
    get_frames envImage30 { defaultArgs with fps := some 30 } false =
      .ok (false, ["inputs"], { defaultArgs with fps := some 30 }) ∧
    ({ defaultArgs with fps := some 30 } : Args).fps ≠ none ∧
    ({ defaultArgs with fps := some 30 } : Args).ext = defaultArgs.ext := by
  have h : get_frames envImage30 { defaultArgs with fps := some 30 } false =
      .ok (false, ["inputs"], { defaultArgs with fps := some 30 }) := rfl
  have hfps : ({ defaultArgs with fps := some 30 } : Args).fps ≠ none := by decide
  refine ⟨h, hfps, ?_⟩
  have := C6_config_readonly_except_fps envImage30 { defaultArgs with fps := some 30 }
    false false ["inputs"] { defaultArgs with fps := some 30 } h
  exact this.2.2.2.2.2.2.2.2.2.2

/-- C8: the output frame rate is resolved exactly as the spec says — an
explicit override wins; otherwise a video input takes the rate probed from the
container; otherwise the default 24. -/
theorem C8_fps_resolution :
    ∀ (env : FrameSourceEnv) (args : Args) (ex v : Bool) (ps : List String) (args1 : Args),
      get_frames env args ex = .ok (v, ps, args1) →
      args1.fps = some (match args.fps with
        | some f => f
        | none => if v then env.probedFps else 24) := by
  intro env args ex v ps args1 h
  cases henv : env.mimeType with
  | none => simp [get_frames, henv] at h
  | some k =>
    rcases hfps : args.fps with _ | f <;>
      cases k <;>
      simp only [get_frames, henv, hfps] at h <;>
      simp only [reduceCtorEq, if_false, if_true, ite_true, ite_false, reduceIte] at h <;>
      (try split_ifs at h) <;>
      simp only [Except.ok.injEq, Prod.mk.injEq] at h <;>
      obtain ⟨hv, -, h2⟩ := h <;> subst h2 <;> simp_all

/-- Witness for `C8_fps_resolution`: a video input with no override resolves
to the probed 30 fps. -/
theorem C8_witness :
    get_frames ⟨some .video, [], [], 30⟩ defaultArgs false =
      .ok (true, [], { defaultArgs with fps := some 30 }) ∧
    ({ defaultArgs with fps := some 30 } : Args).fps = some 30 := by
  have h : get_frames ⟨some .video, [], [], 30⟩ defaultArgs false =
      .ok (true, [], { defaultArgs with fps := some 30 }) := rfl
  refine ⟨h, ?_⟩
  exact C8_fps_resolution ⟨some .video, [], [], 30⟩ defaultArgs false true []
    { defaultArgs with fps := some 30 } h

/-! ## Claims about stream mode (C1, C4) -/

/-- Configuration with `--outscale 2`, as in the spec's stream scenario. -/
def argsScale2 : Args := { defaultArgs with outscale := 2 }

/-- Configuration with `--outscale 0.9`. -/
def argsScale09 : Args := { defaultArgs with outscale := (9 : ℚ) / 10 }

/-- A stream run: one 64x64 frame from the decode pipe, on which the engine
reports a capacity-exceeded failure. -/
def streamRunDrop : StreamRun := ⟨64, 64, 1, fun _ => true⟩

/-- A stream run: ten 64x64 frames, the engine always succeeds (the spec's
stream scenario). -/
def streamRunOk : StreamRun := ⟨64, 64, 10, fun _ => false⟩

/-- C1 counterexample: in stream mode a capacity-exceeded failure skips the
`encoder.stdin.write` (the `except` branch of lines 123-128 emits nothing), so
a run that reads one frame and fails on it performs zero writes — the number
of per-frame writes does not equal the number of frames read. -/
theorem C1_counterexample :
    streamWrites argsScale2 streamRunDrop = [] ∧
    framesRead streamRunDrop = 1 ∧
    (streamWrites argsScale2 streamRunDrop).length ≠ framesRead streamRunDrop := by
  exact ⟨rfl, rfl, by decide⟩

/-- Helper: a `filterMap` that drops exactly the elements satisfying `p`
partitions the length. -/
theorem length_filterMap_drop {β : Type} (p : ℕ → Bool) (g : ℕ → β) (l : List ℕ) :
    (l.filterMap (fun i => if p i then none else some (g i))).length
      + (l.filter (fun i => p i)).length = l.length := by
  induction l with
  | nil => simp
  | cons a t ih => cases hpa : p a <;> simp [hpa] <;> omega

/-- C1 as amended: in stream mode (video input), every write to the encode
pipe carries exactly `out_width * out_height * 3` bytes — the geometry of
line 83 — and the number of writes equals the number of frames read from the
decode pipe minus the number of frames on which the engine reported a
capacity-exceeded failure (such frames are dropped, not re-emitted). -/
theorem C1_stream_writes :
    ∀ (args : Args) (r : StreamRun), 0 ≤ args.outscale →
      (∀ b ∈ streamWrites args r,
        (b : ℤ) = stream_out_width args r.width * stream_out_height args r.height * 3) ∧
      (streamWrites args r).length
        + ((List.range r.nFrames).filter (fun i => r.fails i)).length = framesRead r := by
  intro args r hs
  constructor
  · intro b hb
    obtain ⟨i, -, hf⟩ := List.mem_filterMap.mp hb
    by_cases hfail : r.fails i
    · simp [hfail] at hf
    · simp only [hfail, if_false, ite_false, Option.some.injEq, Bool.false_eq_true] at hf
      have hh : (0 : ℚ) ≤ (r.height : ℚ) * args.outscale := mul_nonneg (by positivity) hs
      have hw : (0 : ℚ) ≤ (r.width : ℚ) * args.outscale := mul_nonneg (by positivity) hs
      have hh' : 0 ≤ pyInt ((r.height : ℚ) * args.outscale) := by
        unfold pyInt; rw [if_pos hh]; exact Int.floor_nonneg.mpr hh
      have hw' : 0 ≤ pyInt ((r.width : ℚ) * args.outscale) := by
        unfold pyInt; rw [if_pos hw]; exact Int.floor_nonneg.mpr hw
      subst hf
      unfold enhancedDims stream_out_width stream_out_height
      push_cast [Int.toNat_of_nonneg hh', Int.toNat_of_nonneg hw']
      ring
  · have h := length_filterMap_drop (fun i => r.fails i)
      (fun _ => (enhancedDims args.outscale r.height r.width).1
        * (enhancedDims args.outscale r.height r.width).2 * 3)
      (List.range r.nFrames)
    simpa [streamWrites, framesRead] using h

/-- Witness for `C1_stream_writes`: the spec's stream scenario — ten 64x64
frames at outscale 2, no failures — performs as many writes as frames read. -/
theorem C1_witness :
    (0 : ℚ) ≤ argsScale2.outscale ∧
    (streamWrites argsScale2 streamRunOk).length
      + ((List.range streamRunOk.nFrames).filter (fun i => streamRunOk.fails i)).length
      = framesRead streamRunOk := by
  have hs : (0 : ℚ) ≤ argsScale2.outscale := by norm_num [argsScale2, defaultArgs]
  exact ⟨hs, (C1_stream_writes argsScale2 streamRunOk hs).2⟩

/-- C4 counterexample: the encoder geometry of line 83 uses Python `int()`
(truncation), not rounding: at input width 2 and outscale 0.9 the code
computes `int(1.8) = 1` while `round(1.8) = 2`. -/
theorem C4_counterexample :
    stream_out_width argsScale09 2 = 1 ∧
    specRound ((2 : ℚ) * argsScale09.outscale) = 2 ∧
    stream_out_width argsScale09 2 ≠ specRound ((2 : ℚ) * argsScale09.outscale) := by
  have h1 : stream_out_width argsScale09 2 = 1 := by
    norm_num [stream_out_width, pyInt, argsScale09, defaultArgs]
  have h2 : specRound ((2 : ℚ) * argsScale09.outscale) = 2 := by
    norm_num [specRound, argsScale09, defaultArgs]
  exact ⟨h1, h2, by rw [h1, h2]; decide⟩

/-- C4 as amended: for nonnegative outscale the output dimensions used for the
encode pipe are the truncation (floor) of `dimension * outscale`: the unique
integers with `out ≤ dim * outscale < out + 1`. -/
theorem C4_truncated_dims :
    ∀ (args : Args) (w h : ℕ), 0 ≤ args.outscale →
      ((stream_out_width args w : ℚ) ≤ (w : ℚ) * args.outscale ∧
        (w : ℚ) * args.outscale < stream_out_width args w + 1) ∧
      ((stream_out_height args h : ℚ) ≤ (h : ℚ) * args.outscale ∧
        (h : ℚ) * args.outscale < stream_out_height args h + 1) := by
  intro args w h hs
  have hw : (0 : ℚ) ≤ (w : ℚ) * args.outscale := mul_nonneg (by positivity) hs
  have hh : (0 : ℚ) ≤ (h : ℚ) * args.outscale := mul_nonneg (by positivity) hs
  unfold stream_out_width stream_out_height pyInt
  rw [if_pos hw, if_pos hh]
  refine ⟨⟨Int.floor_le _, ?_⟩, ⟨Int.floor_le _, ?_⟩⟩
  · exact_mod_cast Int.lt_floor_add_one ((w : ℚ) * args.outscale)
  · exact_mod_cast Int.lt_floor_add_one ((h : ℚ) * args.outscale)

/-- Witness for `C4_truncated_dims` at width 2, height 2, outscale 0.9. -/
theorem C4_witness :
    (0 : ℚ) ≤ argsScale09.outscale ∧
    ((stream_out_width argsScale09 2 : ℚ) ≤ (2 : ℚ) * argsScale09.outscale ∧
      (2 : ℚ) * argsScale09.outscale < stream_out_width argsScale09 2 + 1) := by
  have hs : (0 : ℚ) ≤ argsScale09.outscale := by norm_num [argsScale09, defaultArgs]
  exact ⟨hs, (C4_truncated_dims argsScale09 2 2 hs).1⟩

/-! ## Claims about the extension policy (C5) and cleanup (C9) -/

/-- The raw `splitext` extension is empty or starts with a dot. -/
theorem splitext_snd_cases (n : String) :
    (splitext n).2 = "" ∨ ∃ r : List Char, (splitext n).2 = String.mk ('.' :: r) := by
  unfold splitext
  split
  · left; rfl
  · split
    · right; exact ⟨_, rfl⟩
    · left; rfl

/-- String concatenation acts as concatenation of the character data. -/
theorem string_data_append (s t : String) : (s ++ t).data = s.data ++ t.data := rfl

/-- C5: for every successfully enhanced frame, the result record carries the
resolved save path; under `--ext auto` a frame without alpha keeps the source
file's extension (`pyTail` strips exactly the leading dot, so for a nonempty
source extension the saved extension is the source extension sans dot); and a
4-channel (alpha) frame is forced to the lossless `png` under every `--ext`
policy. -/
theorem C5_extension_policy :
    ∀ (args : Args) (saveFolder : String) (f : FrameIn), f.fail = false →
      (processFrame args saveFolder f).2.1 = some ⟨frame_save_path args saveFolder f⟩ ∧
      (args.ext = "auto" → frame_img_mode f = false →
        frame_ext args f = pyTail (splitext (basename f.path)).2 ∧
        ((splitext (basename f.path)).2 ≠ "" →
          "." ++ frame_ext args f = (splitext (basename f.path)).2)) ∧
      (frame_img_mode f = true → frame_ext args f = "png") := by
  intro args folder f hf
  refine ⟨by simp [processFrame, hf], ?_, ?_⟩
  · intro hauto hmode
    constructor
    · simp [frame_ext, resolve_extension, hauto, hmode]
    · intro hne
      rcases splitext_snd_cases (basename f.path) with h0 | ⟨r, hr⟩
      · exact absurd h0 hne
      · rw [hr]
        simp only [frame_ext, resolve_extension, hauto, hmode, if_pos rfl,
          Bool.false_eq_true, if_false, hr]
        apply String.ext
        simp [string_data_append, pyTail]
  · intro hmode
    simp [frame_ext, resolve_extension, hmode]

/-- A 3-channel input frame named `x.jpg` on which the engine succeeds. -/
def frameJpg : FrameIn := ⟨"x.jpg", 3, 3, false, ""⟩

/-- A 4-channel (alpha) input frame on which the engine succeeds. -/
def frameAlpha : FrameIn := ⟨"y.jpg", 3, 4, false, ""⟩

/-- Witness for `C5_extension_policy`: input `x.jpg` under `--ext auto` saves
with extension `jpg`; an alpha frame under `--ext jpg` still saves as `png`. -/
theorem C5_witness :
    frameJpg.fail = false ∧ defaultArgs.ext = "auto" ∧ frame_img_mode frameJpg = false ∧
    frame_ext defaultArgs frameJpg = "jpg" ∧
    frameAlpha.fail = false ∧ frame_img_mode frameAlpha = true ∧
    frame_ext { defaultArgs with ext := "jpg" } frameAlpha = "png" := by
  have h1 := (C5_extension_policy defaultArgs "results" frameJpg rfl).2.1 rfl rfl
  have h2 := (C5_extension_policy { defaultArgs with ext := "jpg" } "results" frameAlpha rfl).2.2 rfl
  refine ⟨rfl, rfl, rfl, ?_, rfl, rfl, h2⟩
  rw [h1.1]
  decide

/-- C9 counterexample: with a failing remux (`os.system` exit status 1) the
scratch directories are still removed, but nothing surfaces the failure to
the operator — the run reports nothing and exits 0 (the exit status of the
remux call is never inspected).  The "failure is surfaced" half of the claim
is false. -/
theorem C9_counterexample :
    TailEffect.rmtreeSaveFolder ∈ (inference_tail "png" true 1).1 ∧
    TailEffect.rmtreeFrameFolder ∈ (inference_tail "png" true 1).1 ∧
    ¬ surfacedFailure (inference_tail "png" true 1) := by
  refine ⟨by decide, by decide, ?_⟩
  simp [surfacedFailure, inference_tail]

/-- C9 as amended: after the consumer pool terminates the remux command runs
first and the scratch directories are then removed whatever the remux exit
status was (the outcome does not depend on it at all); however the remux exit
status is ignored — no failure report is produced and the run exits 0, so a
remux failure is visible only through the external tool's own console
output. -/
theorem C9_cleanup_unconditional :
    ∀ (ext : String) (isdir : Bool) (e : ℤ),
      TailEffect.rmtreeSaveFolder ∈ (inference_tail ext isdir e).1 ∧
      TailEffect.rmtreeFrameFolder ∈ (inference_tail ext true e).1 ∧
      (inference_tail ext isdir e).1.head? = some (.remux ext) ∧
      inference_tail ext isdir e = inference_tail ext isdir 0 ∧
      ¬ surfacedFailure (inference_tail ext isdir e) := by
  intro ext isdir e
  refine ⟨?_, by simp [inference_tail], rfl, rfl, ?_⟩
  · cases isdir <;> simp [inference_tail]
  · simp [surfacedFailure, inference_tail]

/-! ## Compositional description of the enhancement loop -/

theorem runEnhanceLoop_nil (args : Args) (folder : String) :
    runEnhanceLoop args folder [] = ⟨[], [], 0, none⟩ := rfl

theorem loop_queued (args : Args) (folder : String) (fs : List FrameIn) :
    ∀ acc : LoopOut,
      (fs.foldl (loopStep args folder) acc).queued
        = acc.queued ++ (runEnhanceLoop args folder fs).queued := by
  induction fs with
  | nil => intro acc; simp [runEnhanceLoop]
  | cons f t ih =>
    intro acc
    simp only [runEnhanceLoop, List.foldl_cons]
    rw [ih, ih]
    simp [loopStep]

theorem loop_logs (args : Args) (folder : String) (fs : List FrameIn) :
    ∀ acc : LoopOut,
      (fs.foldl (loopStep args folder) acc).logs
        = acc.logs ++ (runEnhanceLoop args folder fs).logs := by
  induction fs with
  | nil => intro acc; simp [runEnhanceLoop]
  | cons f t ih =>
    intro acc
    simp only [runEnhanceLoop, List.foldl_cons]
    rw [ih, ih]
    simp [loopStep]

theorem loop_pbar (args : Args) (folder : String) (fs : List FrameIn) :
    ∀ acc : LoopOut,
      (fs.foldl (loopStep args folder) acc).pbarUpdates
        = acc.pbarUpdates + (runEnhanceLoop args folder fs).pbarUpdates := by
  induction fs with
  | nil => intro acc; simp [runEnhanceLoop]
  | cons f t ih =>
    intro acc
    simp only [runEnhanceLoop, List.foldl_cons]
    rw [ih, ih]
    simp [loopStep]
    omega

theorem loop_last (args : Args) (folder : String) (fs : List FrameIn) :
    ∀ acc : LoopOut,
      (fs.foldl (loopStep args folder) acc).lastExtension
        = ((runEnhanceLoop args folder fs).lastExtension).or acc.lastExtension := by
  induction fs with
  | nil => intro acc; simp [runEnhanceLoop, Option.or]
  | cons f t ih =>
    intro acc
    simp only [runEnhanceLoop, List.foldl_cons]
    rw [ih, ih]
    cases (runEnhanceLoop args folder t).lastExtension <;> simp [loopStep, Option.or]

theorem runEnhanceLoop_queued_cons (args : Args) (folder : String) (f : FrameIn)
    (t : List FrameIn) :
    (runEnhanceLoop args folder (f :: t)).queued
      = (processFrame args folder f).2.1.toList ++ (runEnhanceLoop args folder t).queued := by
  show (t.foldl (loopStep args folder) (loopStep args folder ⟨[], [], 0, none⟩ f)).queued = _
  rw [loop_queued]
  simp [loopStep]

theorem runEnhanceLoop_logs_cons (args : Args) (folder : String) (f : FrameIn)
    (t : List FrameIn) :
    (runEnhanceLoop args folder (f :: t)).logs
      = (processFrame args folder f).1 ++ (runEnhanceLoop args folder t).logs := by
  show (t.foldl (loopStep args folder) (loopStep args folder ⟨[], [], 0, none⟩ f)).logs = _
  rw [loop_logs]
  simp [loopStep]

theorem runEnhanceLoop_pbar_cons (args : Args) (folder : String) (f : FrameIn)
    (t : List FrameIn) :
    (runEnhanceLoop args folder (f :: t)).pbarUpdates
      = 1 + (runEnhanceLoop args folder t).pbarUpdates := by
  show (t.foldl (loopStep args folder) (loopStep args folder ⟨[], [], 0, none⟩ f)).pbarUpdates = _
  rw [loop_pbar]
  simp [loopStep]

theorem runEnhanceLoop_last_cons (args : Args) (folder : String) (f : FrameIn)
    (t : List FrameIn) :
    (runEnhanceLoop args folder (f :: t)).lastExtension
      = ((runEnhanceLoop args folder t).lastExtension).or
          (some (processFrame args folder f).2.2) := by
  show (t.foldl (loopStep args folder) (loopStep args folder ⟨[], [], 0, none⟩ f)).lastExtension = _
  rw [loop_last]
  simp [loopStep]

/-! ## Claim C2: per-frame recoverable failures in file mode -/

/-- Ten video-extracted frames, capacity-exceeded on frame 5 of 10. -/
def framesFail5 : List FrameIn :=
  [⟨"frame00000001.png", 3, 3, false, ""⟩, ⟨"frame00000002.png", 3, 3, false, ""⟩,
   ⟨"frame00000003.png", 3, 3, false, ""⟩, ⟨"frame00000004.png", 3, 3, false, ""⟩,
   ⟨"frame00000005.png", 3, 3, true, "CUDA out of memory"⟩,
   ⟨"frame00000006.png", 3, 3, false, ""⟩, ⟨"frame00000007.png", 3, 3, false, ""⟩,
   ⟨"frame00000008.png", 3, 3, false, ""⟩, ⟨"frame00000009.png", 3, 3, false, ""⟩,
   ⟨"frame00000010.png", 3, 3, false, ""⟩]

/-- Whether the character sequence `pat` occurs contiguously inside `s`. -/
def containsSeq (pat s : List Char) : Bool :=
  match s with
  | [] => pat.isEmpty
  | _ :: t => pat.isPrefixOf s || containsSeq pat t

/-- Whether a log event's printed text mentions the given identifier. -/
def mentionsIdent (ev : LogEvent) (ident : String) : Bool :=
  containsSeq ident.data (printedText ev).data

/-- C2 counterexample: in the 10-frame run failing on frame 5, a warning is
printed and nine result records are emitted — but no printed text mentions the
failed frame's identity (`frame00000005`): the two prints of lines 172-173
carry only the engine's message and a generic hint, so the "logged together
with that frame's identity" / "warning referencing frame 5" part of the claim
is false. -/
theorem C2_counterexample :
    (runEnhanceLoop defaultArgs "out" framesFail5).logs
      = [.errorPrint "CUDA out of memory", .oomHint] ∧
    ((runEnhanceLoop defaultArgs "out" framesFail5).logs.all
      (fun ev => !(mentionsIdent ev "frame00000005"))) = true ∧
    (runEnhanceLoop defaultArgs "out" framesFail5).queued.length = 9 ∧
    (runEnhanceLoop defaultArgs "out" framesFail5).pbarUpdates = 10 := by
  refine ⟨by decide, by decide, by decide, by decide⟩

/-- C2 as amended: a capacity-exceeded failure on a frame is logged (with the
engine's message and a generic hint, but without the frame's identity), no
result record is emitted for that frame, and the loop continues through every
remaining frame — so a 10-frame run failing only on frame 5 yields 9 outputs;
any run that reaches the remux tail exits 0. -/
theorem C2_recoverable_failures :
    (∀ (args : Args) (folder : String) (frames : List FrameIn),
      (runEnhanceLoop args folder frames).queued.length
        = (frames.filter (fun f => !f.fail)).length ∧
      (runEnhanceLoop args folder frames).pbarUpdates = frames.length ∧
      (runEnhanceLoop args folder frames).logs
        = frames.flatMap
            (fun f => if f.fail then [.errorPrint f.errMsg, .oomHint] else [])) ∧
    (∀ (env : FrameSourceEnv) (mk : String → FrameIn) (args : Args)
        (fdir : Bool) (rex : ℤ) (out : RunOutput),
      inference_frames env mk args fdir rex = .ok out → out.exitCode = 0) := by
  constructor
  · intro args folder frames
    induction frames with
    | nil => exact ⟨rfl, rfl, rfl⟩
    | cons f t ih =>
      obtain ⟨ih1, ih2, ih3⟩ := ih
      refine ⟨?_, ?_, ?_⟩
      · rw [runEnhanceLoop_queued_cons]
        cases hf : f.fail <;> simp [processFrame, hf, ih1]
      · rw [runEnhanceLoop_pbar_cons, ih2]
        simp [Nat.add_comm]
      · rw [runEnhanceLoop_logs_cons, ih3]
        cases hf : f.fail <;> simp [processFrame, hf]
  · intro env mk args fdir rex out h
    unfold inference_frames at h
    rcases hg : get_frames env args true with e | ⟨v, paths, args1⟩ <;> rw [hg] at h
    · exact absurd h (by simp)
    · rcases hl : (runEnhanceLoop args1
          (args1.output ++ "/" ++ (splitext (basename args1.input)).1 ++ "/frames_tmpout")
          (paths.map (fun p => { mk p with path := p }))).lastExtension with _ | ext <;>
        simp only [hl] at h
      · exact absurd h (by simp)
      · have hout := Except.ok.inj h
        subst hout
        rfl

/-- A concrete successful two-frame file-mode run used as a witness. -/
def outDirBA : RunOutput :=
  { logs := []
    queued := [⟨"results/inputs/frames_tmpout/a_out."⟩, ⟨"results/inputs/frames_tmpout/b_out."⟩]
    pbarUpdates := 2
    queueContent := [.item ⟨"results/inputs/frames_tmpout/a_out."⟩,
      .item ⟨"results/inputs/frames_tmpout/b_out."⟩, .quit, .quit, .quit, .quit]
    effects := [.remux "", .rmtreeSaveFolder]
    remuxReports := []
    exitCode := 0 }

/-- Witness for `C2_recoverable_failures`: a concrete run that reaches the
remux tail exits 0. -/
theorem C2_witness :
    inference_frames envDirBA metaOk defaultArgs false 0 = .ok outDirBA ∧
    outDirBA.exitCode = 0 := by
  have h : inference_frames envDirBA metaOk defaultArgs false 0 = .ok outDirBA := rfl
  exact ⟨h, C2_recoverable_failures.2 envDirBA metaOk defaultArgs false 0 outDirBA h⟩

/-! ## Claim C3: shutdown sentinels and consumer termination -/

theorem countTrue_nil : countTrue [] = 0 := rfl

theorem countQuit_append (a b : List QVal) :
    countQuit (a ++ b) = countQuit a + countQuit b := by
  induction a with
  | nil => simp [countQuit]
  | cons v t ih => cases v <;> simp [countQuit, ih] <;> omega

theorem countQuit_items (l : List QItem) : countQuit (l.map QVal.item) = 0 := by
  induction l with
  | nil => rfl
  | cons q t ih => simpa [countQuit] using ih

theorem countQuit_replicate (k : ℕ) : countQuit (List.replicate k QVal.quit) = k := by
  induction k with
  | zero => rfl
  | succ n ih => simp [List.replicate_succ, countQuit, ih]

theorem countTrue_replicate (k : ℕ) : countTrue (List.replicate k true) = k := by
  induction k with
  | zero => rfl
  | succ n ih => simp [List.replicate_succ, countTrue, ih]

theorem countTrue_set_false (l : List Bool) (i : ℕ) (h : l[i]? = some true) :
    countTrue (l.set i false) + 1 = countTrue l := by
  induction l generalizing i with
  | nil => simp at h
  | cons b t ih =>
    cases i with
    | zero =>
      simp only [List.getElem?_cons_zero, Option.some.injEq] at h
      subst h
      rfl
    | succ n =>
      simp only [List.getElem?_cons_succ] at h
      have := ih n h
      cases b <;> simp only [List.set_cons_succ, countTrue] <;> omega

theorem exists_running_of_countTrue_pos :
    ∀ l : List Bool, 0 < countTrue l → ∃ i : ℕ, l[i]? = some true := by
  intro l
  induction l with
  | nil => intro h; simp [countTrue] at h
  | cons b t ih =>
    intro h
    cases hb : b with
    | true => exact ⟨0, by simp [hb]⟩
    | false =>
      subst hb
      simp only [countTrue] at h
      obtain ⟨i, hi⟩ := ih h
      exact ⟨i + 1, by simp only [List.getElem?_cons_succ]; exact hi⟩

/-- The pool invariant: there are at least as many sentinels left in the queue
as there are consumers still running. -/
def PoolInv (s : PoolState) : Prop := countTrue s.running ≤ countQuit s.queue

theorem poolStep_inv {s t : PoolState} (hst : PoolStep s t) (h : PoolInv s) : PoolInv t := by
  cases hst with
  | deq i v rest hq hi =>
    unfold PoolInv at h ⊢
    rw [hq] at h
    cases v with
    | item q =>
      show countTrue (if QVal.item q = QVal.quit then s.running.set i false else s.running)
        ≤ countQuit rest
      rw [if_neg (by simp)]
      simpa [countQuit] using h
    | quit =>
      show countTrue (if QVal.quit = QVal.quit then s.running.set i false else s.running)
        ≤ countQuit rest
      rw [if_pos rfl]
      simp only [countQuit] at h
      have hset := countTrue_set_false s.running i hi
      omega

theorem poolStep_length {s t : PoolState} (hst : PoolStep s t) :
    t.running.length = s.running.length := by
  cases hst with
  | deq i v rest hq hi =>
    cases v <;> simp

theorem poolStep_queue_shrinks (s t : PoolState) (hst : PoolStep s t) :
    t.queue.length < s.queue.length := by
  cases hst with
  | deq i v rest hq hi => simp [hq]

theorem poolReachable_inv {init s : PoolState} (h : PoolReachable init s)
    (h0 : PoolInv init) : PoolInv s := by
  induction h with
  | refl => exact h0
  | tail _ hbc ih => exact poolStep_inv hbc ih

theorem poolReachable_length {init s : PoolState} (h : PoolReachable init s) :
    s.running.length = init.running.length := by
  induction h with
  | refl => rfl
  | tail _ hbc ih => rw [poolStep_length hbc, ih]

theorem poolStuck_all_done (s : PoolState) (hstuck : PoolStuck s) (hinv : PoolInv s) :
    countTrue s.running = 0 := by
  by_contra hne
  obtain ⟨i, hi⟩ := exists_running_of_countTrue_pos s.running (by omega)
  cases hq : s.queue with
  | nil =>
    unfold PoolInv at hinv
    rw [hq] at hinv
    simp [countQuit] at hinv
    omega
  | cons v rest => exact hstuck _ (PoolStep.deq s i v rest hq hi)

/-- C3: after the enhancement loop exhausts the frame sequence, exactly
`args.consumer` shutdown sentinels sit on the result queue — the same number
as the consumers started; every pool step strictly shrinks the queue (so every
execution is finite); and from the initial state the pool always keeps its
`args.consumer` workers, and whenever no further step is possible every worker
has terminated (no deadlock, no leaked worker). -/
theorem C3_sentinels_and_termination :
    ∀ (args : Args) (folder : String) (frames : List FrameIn),
      countQuit (finalQueue args folder frames) = args.consumer ∧
      (initPool args folder frames).running.length = args.consumer ∧
      (∀ s t : PoolState, PoolStep s t → t.queue.length < s.queue.length) ∧
      (∀ s : PoolState, PoolReachable (initPool args folder frames) s →
        s.running.length = args.consumer ∧ (PoolStuck s → countTrue s.running = 0)) := by
  intro args folder frames
  have hcount : countQuit (finalQueue args folder frames) = args.consumer := by
    unfold finalQueue
    rw [countQuit_append, countQuit_items, countQuit_replicate, Nat.zero_add]
  have hinit : PoolInv (initPool args folder frames) := by
    unfold PoolInv initPool
    rw [hcount, countTrue_replicate]
  refine ⟨hcount, by simp [initPool], poolStep_queue_shrinks, ?_⟩
  intro s hs
  refine ⟨?_, fun hstuck => poolStuck_all_done s hstuck (poolReachable_inv hs hinit)⟩
  rw [poolReachable_length hs]
  simp [initPool]

/-- Arguments with a single consumer, used in the C3 witness. -/
def argsOneConsumer : Args := { defaultArgs with consumer := 1 }

/-- The drained pool state of the C3 witness. -/
def poolDone : PoolState := ⟨[], [false]⟩

/-- Witness for `C3_sentinels_and_termination`: one consumer, no frames.  The
initial queue holds exactly one sentinel; after the single possible step the
pool is stuck and its one consumer has terminated. -/
theorem C3_witness :
    countQuit (finalQueue argsOneConsumer "f" []) = 1 ∧
    PoolReachable (initPool argsOneConsumer "f" []) poolDone ∧
    PoolStuck poolDone ∧
    poolDone.running.length = 1 ∧
    countTrue poolDone.running = 0 := by
  have hstep : PoolStep (initPool argsOneConsumer "f" []) poolDone :=
    PoolStep.deq (initPool argsOneConsumer "f" []) 0 QVal.quit [] rfl rfl
  have hreach : PoolReachable (initPool argsOneConsumer "f" []) poolDone :=
    Relation.ReflTransGen.single hstep
  have hstuck : PoolStuck poolDone := by
    intro t ht
    cases ht with
    | deq i v rest hq hi => simp [poolDone] at hq
  have hmain := C3_sentinels_and_termination argsOneConsumer "f" []
  exact ⟨hmain.1, hreach, hstuck, (hmain.2.2.2 poolDone hreach).1,
    (hmain.2.2.2 poolDone hreach).2 hstuck⟩

/-! ## Claim C10: the remux input pattern uses the final iteration's extension -/

theorem slash_frame_data :
    ("/frame" : String).data = ("/" : String).data ++ ("frame" : String).data := rfl

/-- Equality of a saved-frame filename with a merge-pattern expansion forces
the digit strings and the extensions to agree (both digit parts have width
8). -/
theorem mergePattern_inj (folder E P d d' : String)
    (hd : d.length = 8) (hd' : d'.length = 8) :
    folder ++ "/" ++ ("frame" ++ d) ++ "_out." ++ E = mergePatternFile folder P d'
      ↔ (d = d' ∧ E = P) := by
  constructor
  · intro h
    have hdata := congrArg String.data h
    simp only [mergePatternFile, string_data_append, List.append_assoc, List.cons_append,
      List.nil_append] at hdata
    have h1 := List.append_cancel_left hdata
    simp only [List.cons.injEq, true_and] at h1
    have hlen : d.data.length = d'.data.length := hd.trans hd'.symm
    obtain ⟨hdd, htail⟩ := List.append_inj h1 hlen
    simp only [List.cons.injEq, true_and] at htail
    exact ⟨String.ext hdd, String.ext htail⟩
  · rintro ⟨rfl, rfl⟩
    apply String.ext
    simp only [mergePatternFile, string_data_append, List.append_assoc, List.cons_append,
      List.nil_append]

/-- C10: with a non-empty frame sequence the filename pattern handed to the
remux step carries a single extension — the value of the Python variable
`extension` after the final loop iteration: the raw `splitext` value (leading
dot included) when the final frame's enhancement failed, the resolved
extension when it succeeded.  Consequently a saved frame (whose basename stems
from a width-8 `frame%08d` extraction name) is an expansion of the pattern iff
its own resolved extension equals that single pattern extension — frames saved
with a different extension are not picked up by the merge. -/
theorem C10_merge_pattern_single_extension :
    ∀ (args : Args) (folder : String) (frames : List FrameIn) (h : frames ≠ []),
      (runEnhanceLoop args folder frames).lastExtension
        = some (processFrame args folder (frames.getLast h)).2.2 ∧
      ((frames.getLast h).fail = true →
        (runEnhanceLoop args folder frames).lastExtension
          = some (splitext (basename (frames.getLast h).path)).2) ∧
      ((frames.getLast h).fail = false →
        (runEnhanceLoop args folder frames).lastExtension
          = some (frame_ext args (frames.getLast h))) ∧
      (∀ (f : FrameIn) (d : String), f.fail = false → d.length = 8 →
        (splitext (basename f.path)).1 = "frame" ++ d →
        ∀ P : String,
          PickedUp folder P (frame_save_path args folder f) ↔ frame_ext args f = P) := by
  intro args folder frames h
  have hmain : ∀ (fs : List FrameIn) (hfs : fs ≠ []),
      (runEnhanceLoop args folder fs).lastExtension
        = some (processFrame args folder (fs.getLast hfs)).2.2 := by
    intro fs
    induction fs with
    | nil => intro hfs; exact absurd rfl hfs
    | cons f t ih =>
      intro hfs
      cases t with
      | nil => simp [runEnhanceLoop_last_cons, runEnhanceLoop_nil, Option.or]
      | cons g t' =>
        rw [runEnhanceLoop_last_cons, List.getLast_cons (by simp), ih (by simp)]
        simp [Option.or]
  refine ⟨hmain frames h, ?_, ?_, ?_⟩
  · intro hfail
    rw [hmain frames h]
    simp [processFrame, hfail]
  · intro hok
    rw [hmain frames h]
    simp [processFrame, hok]
  · intro f d hf hd hname P
    unfold PickedUp frame_save_path
    rw [hname]
    constructor
    · rintro ⟨d', hd', heq⟩
      exact ((mergePattern_inj folder (frame_ext args f) P d d' hd hd').mp heq).2
    · intro hEP
      exact ⟨d, hd, (mergePattern_inj folder (frame_ext args f) P d d hd hd).mpr ⟨rfl, hEP⟩⟩

/-- A successfully enhanced extracted frame used in the C10 witness. -/
def frameSeven : FrameIn := ⟨"frame00000007.png", 3, 3, false, ""⟩

/-- Witness for `C10_merge_pattern_single_extension` on the concrete 10-frame
run failing only on frame 5: the pattern extension is the final (successful)
frame's resolved extension, and the pick-up equivalence holds for a concrete
extracted frame name. -/
theorem C10_witness :
    framesFail5 ≠ [] ∧
    (runEnhanceLoop defaultArgs "out" framesFail5).lastExtension
      = some (processFrame defaultArgs "out" (framesFail5.getLast (by decide))).2.2 ∧
    frameSeven.fail = false ∧
    ("00000007" : String).length = 8 ∧
    (splitext (basename frameSeven.path)).1 = "frame" ++ "00000007" ∧
    (PickedUp "out" "png" (frame_save_path defaultArgs "out" frameSeven)
      ↔ frame_ext defaultArgs frameSeven = "png") := by
  have hne : framesFail5 ≠ [] := by decide
  have hname : (splitext (basename frameSeven.path)).1 = "frame" ++ "00000007" := by decide
  refine ⟨hne, (C10_merge_pattern_single_extension defaultArgs "out" framesFail5 hne).1,
    rfl, rfl, hname, ?_⟩
  exact (C10_merge_pattern_single_extension defaultArgs "out" framesFail5 hne).2.2.2
    frameSeven "00000007" rfl rfl hname "png"

end RealESRGANVideo
